import Mathlib

/-!
Verification of the lockstitch-go repository against its specification.

The repository contains several instantiations of the same protocol design:

* `src/lockstitch.go` (first document): the SHA-512/256 + AES-256 + GMAC
  instantiation, with operation codes opInit=0x01, opMix=0x02, opDerive=0x03,
  opCrypt=0x04, opAuthCrypt=0x05, opExpand=0x06, opRatchet=0x07.  It is
  embedded below in namespace `Lockstitch`.
* `src/unnamed/part_005` (first document): the cSHAKE128 + AES-128 + POLYVAL
  reference instantiation documented byte-for-byte by the spec, with operation
  codes opMix=0x01, opDerive=0x02, opCrypt=0x03, opAuthCrypt=0x04,
  opExpand=0x05, opRatchet=0x06.  It is embedded below in namespace
  `Reference`.

Both variants keep their state in a hash engine into which bytes are written;
the transcript is modelled as the list of bytes absorbed since the last reset
(the spec's design note 9 explicitly licenses the byte-log view).  The
cryptographic primitives (SHA-512/256, cSHAKE128, the AES block function and
the one-time MAC) are external library dependencies consumed through narrow
interfaces (spec section 6.1); they are modelled as parameters packaged in a
`Prims` structure carrying only their output-length contracts.  Bytes are
natural numbers; all list operations are length-generic, so no value-range
invariant is needed.
-/

/-- Number of significant bytes of a 64-bit value, with 0 treated as one byte.
In `src/internal/tuplehash/tuplehash.go` (LeftEncode/RightEncode) this is
computed as `8 - bits.LeadingZeros64(value|1)/8`, and in
`src/unnamed/part_005` (leftEncode/rightEncode) as
`max(8 - bits.LeadingZeros64(value)/8, 1)`; for values below 2^64 both equal
the branch structure below. -/
def byteLen (v : Nat) : Nat :=
  if v < 256 then 1
  else if v < 65536 then 2
  else if v < 16777216 then 3
  else if v < 4294967296 then 4
  else if v < 1099511627776 then 5
  else if v < 281474976710656 then 6
  else if v < 72057594037927936 then 7
  else 8

/-- The `n` low-order bytes of `v`, most significant first (big-endian), as
produced by `binary.BigEndian.PutUint64` in the Go sources. -/
def beBytes : Nat → Nat → List Nat
  | 0, _ => []
  | n + 1, v => beBytes n (v / 256) ++ [v % 256]

/-- Big-endian byte-list to integer decoder (used only in proofs, to invert
`beBytes`). -/
def fromBE (bs : List Nat) : Nat :=
  bs.foldl (fun a b => a * 256 + b) 0

/-- NIST SP 800-185 left_encode as implemented by
`src/internal/tuplehash/tuplehash.go` LeftEncode (lines 13-20, which appends
these bytes to a destination slice) and `src/unnamed/part_005` leftEncode
(lines 281-287): the significant-byte count followed by the big-endian value
bytes. -/
def leftEncode (v : Nat) : List Nat :=
  byteLen v :: beBytes (byteLen v) v

/-- NIST SP 800-185 right_encode as implemented by
`src/internal/tuplehash/tuplehash.go` RightEncode (lines 22-29) and
`src/unnamed/part_005` rightEncode (lines 292-298): the big-endian value bytes
followed by the significant-byte count. -/
def rightEncode (v : Nat) : List Nat :=
  beBytes (byteLen v) v ++ [byteLen v]

/-- One block-cipher CTR keystream: `m` blocks obtained by encrypting the
big-endian counter values `c, c+1, ...` (reduced mod 2^128).  This is the
keystream produced both by Go's `cipher.NewCTR(...).XORKeyStream` and by the
manual small-message loop in `src/lockstitch.go` aesCTR (lines 329-363), whose
byte-wise increment-with-carry realises the same big-endian increment. -/
def ctrBlocks (enc : List Nat → List Nat → List Nat) (key : List Nat) :
    Nat → Nat → List Nat
  | _, 0 => []
  | c, m + 1 => enc key (beBytes 16 (c % 2 ^ 128)) ++ ctrBlocks enc key (c + 1) m

/-- The first `n` bytes of CTR keystream starting from IV `iv`. -/
def ctrKeystream (enc : List Nat → List Nat → List Nat) (key iv : List Nat)
    (n : Nat) : List Nat :=
  (ctrBlocks enc key (fromBE iv) ((n + 15) / 16)).take n

/-- CTR encryption/decryption: XOR the source with the keystream
(`out[i] = in[i] XOR keystream[i]`, spec section 6.1). -/
def ctrXor (enc : List Nat → List Nat → List Nat) (key iv src : List Nat) :
    List Nat :=
  List.zipWith Nat.xor src (ctrKeystream enc key iv src.length)

/-- Go's `crypto/subtle.ConstantTimeCompare` contract: 1 when the two slices
have equal length and contents, 0 otherwise. -/
def constantTimeCompare (a b : List Nat) : Nat :=
  if a = b then 1 else 0

/-- ASCII bytes of the label string "prf key". -/
def labelPrfKey : List Nat := [112, 114, 102, 32, 107, 101, 121]

/-- ASCII bytes of the label string "data encryption key". -/
def labelDataEncryptionKey : List Nat :=
  [100, 97, 116, 97, 32, 101, 110, 99, 114, 121, 112, 116, 105, 111, 110,
   32, 107, 101, 121]

/-- ASCII bytes of the label string "data authentication key". -/
def labelDataAuthenticationKey : List Nat :=
  [100, 97, 116, 97, 32, 97, 117, 116, 104, 101, 110, 116, 105, 99, 97, 116,
   105, 111, 110, 32, 107, 101, 121]

/-- ASCII bytes of the label string "authentication tag". -/
def labelAuthenticationTag : List Nat :=
  [97, 117, 116, 104, 101, 110, 116, 105, 99, 97, 116, 105, 111, 110, 32,
   116, 97, 103]

/-- ASCII bytes of the label string "ratchet key". -/
def labelRatchetKey : List Nat :=
  [114, 97, 116, 99, 104, 101, 116, 32, 107, 101, 121]

/-- ASCII bytes of the customization prefix "lockstitch:". -/
def custPrefixBytes : List Nat :=
  [108, 111, 99, 107, 115, 116, 105, 116, 99, 104, 58]

namespace Lockstitch

/-- The external primitives consumed by `src/lockstitch.go` (first document)
through narrow interfaces: SHA-512/256 (`hash`, 32-byte digests of the byte
stream written to the engine), the AES-256 block function (`blockEnc`,
16-byte blocks), and AES-256-GMAC over the plaintext with an all-zero nonce
(`mac`, 16-byte tags; `aesGMAC` lines 383-395 feeds the message as GCM
additional data so `gcm.Seal` returns only the tag).  Only the documented
output lengths are assumed. -/
structure Prims where
  hash : List Nat → List Nat
  hash_len : ∀ t, (hash t).length = 32
  blockEnc : List Nat → List Nat → List Nat
  blockEnc_len : ∀ k b, (blockEnc k b).length = 16
  mac : List Nat → List Nat → List Nat
  mac_len : ∀ k m, (mac k m).length = 16

/-- NewProtocol (src/lockstitch.go lines 42-54): the transcript after
construction holds opInit=0x01, the bit-length of the domain, and the
domain. -/
def NewProtocol (domain : List Nat) : List Nat :=
  [1] ++ leftEncode (domain.length * 8) ++ domain

/-- Mix (src/lockstitch.go lines 57-66): append opMix=0x02, the framed label
and the framed input to the transcript. -/
def Mix (t label input : List Nat) : List Nat :=
  t ++ [2] ++ leftEncode (label.length * 8) ++ label ++
    leftEncode (input.length * 8) ++ input

/-- expand (src/lockstitch.go lines 300-321): clone the transcript, append
opExpand=0x06, the framed label and right_encode of the output bit-length,
and take the first `n` bytes of the digest.  All public call sites use
`n` = 32 or 16, below the `n > h.Size()` panic guard. -/
def expand (P : Prims) (t label : List Nat) (n : Nat) : List Nat :=
  (P.hash (t ++ [6] ++ leftEncode (label.length * 8) ++ label ++
    rightEncode (n * 8))).take n

/-- ratchet (src/lockstitch.go lines 283-296): expand a 32-byte ratchet key
(`p.transcript.Size()` = 32) from the old transcript, reset, then write
opRatchet=0x07, left_encode(32*8) and the key. -/
def ratchet (P : Prims) (t : List Nat) : List Nat :=
  [7] ++ leftEncode (32 * 8) ++ expand P t labelRatchetKey 32

/-- The opDerive=0x03 metadata record written by Derive (src/lockstitch.go
lines 79-84): the operation byte, the framed label, and left_encode of the
output bit-length. -/
def deriveMeta (t label : List Nat) (n : Nat) : List Nat :=
  t ++ [3] ++ leftEncode (label.length * 8) ++ label ++ leftEncode (n * 8)

/-- The bytes Derive appends to the destination (src/lockstitch.go
lines 87-94): AES-256-CTR applied, with a 32-byte expanded PRF key and a zero
IV, to a destination tail that was first zeroed, i.e. the raw keystream. -/
def derivePrf (P : Prims) (t label : List Nat) (n : Nat) : List Nat :=
  ctrXor P.blockEnc (expand P (deriveMeta t label n) labelPrfKey 32)
    (List.replicate 16 0) (List.replicate n 0)

/-- Derive's post-operation transcript (src/lockstitch.go line 97). -/
def deriveState (P : Prims) (t label : List Nat) (n : Nat) : List Nat :=
  ratchet P (deriveMeta t label n)

/-- Derive (src/lockstitch.go lines 71-100).  `n` is a Go int; a negative
value or a value above 64 GiB panics (modelled as `none`).  Otherwise the
transcript gets the opDerive=0x03 metadata record, a 32-byte PRF key is
expanded, the output is `n` bytes of AES-256-CTR keystream over a zero IV,
and the transcript ratchets.  Returns the appended destination and new
state. -/
def Derive (P : Prims) (t label dst : List Nat) (n : Int) :
    Option (List Nat × List Nat) :=
  if n < 0 then none
  else if n > 64 * 1024 * 1024 * 1024 then none
  else some (dst ++ derivePrf P t label n.toNat, deriveState P t label n.toNat)

/-- The opCrypt=0x04 metadata record written by Encrypt and Decrypt
(src/lockstitch.go lines 112-117 and 147-152): the operation byte, the framed
label, and left_encode of the message bit-length. -/
def cryptMeta (t label : List Nat) (n : Nat) : List Nat :=
  t ++ [4] ++ leftEncode (label.length * 8) ++ label ++ leftEncode (n * 8)

/-- The opAuthCrypt=0x05 metadata record written by Seal and Open
(src/lockstitch.go lines 185-190 and 226-231). -/
def authCryptMeta (t label : List Nat) (n : Nat) : List Nat :=
  t ++ [5] ++ leftEncode (label.length * 8) ++ label ++ leftEncode (n * 8)

/-- Encrypt (src/lockstitch.go lines 107-136): opCrypt=0x04 metadata record,
32-byte data encryption and authentication keys, the raw 16-byte GMAC
authenticator appended to the transcript, AES-256-CTR over a zero IV, then
ratchet. -/
def Encrypt (P : Prims) (t label dst pt : List Nat) : List Nat × List Nat :=
  let t1 := cryptMeta t label pt.length
  let dek := expand P t1 labelDataEncryptionKey 32
  let dak := expand P t1 labelDataAuthenticationKey 32
  let t2 := t1 ++ P.mac dak pt
  (dst ++ ctrXor P.blockEnc dek (List.replicate 16 0) pt, ratchet P t2)

/-- Decrypt (src/lockstitch.go lines 142-171): the mirror of Encrypt; the
metadata record uses the plaintext length, which equals the ciphertext
length, and the authenticator is computed over the recovered plaintext. -/
def Decrypt (P : Prims) (t label dst ct : List Nat) : List Nat × List Nat :=
  let t1 := cryptMeta t label ct.length
  let dek := expand P t1 labelDataEncryptionKey 32
  let dak := expand P t1 labelDataAuthenticationKey 32
  let pt := ctrXor P.blockEnc dek (List.replicate 16 0) ct
  let t2 := t1 ++ P.mac dak pt
  (dst ++ pt, ratchet P t2)

/-- Seal (src/lockstitch.go lines 179-212): opAuthCrypt=0x05 metadata record,
keys, raw authenticator appended, a 16-byte tag expanded from the transcript,
AES-256-CTR with the tag as IV, then ratchet.  Output is dst, ciphertext and
tag. -/
def Seal (P : Prims) (t label dst pt : List Nat) : List Nat × List Nat :=
  let t1 := authCryptMeta t label pt.length
  let dek := expand P t1 labelDataEncryptionKey 32
  let dak := expand P t1 labelDataAuthenticationKey 32
  let t2 := t1 ++ P.mac dak pt
  let tag := expand P t2 labelAuthenticationTag 16
  (dst ++ ctrXor P.blockEnc dek tag pt ++ tag, ratchet P t2)

/-- Seal's transcript after the authenticator is appended (the value of the
transcript at src/lockstitch.go line 200). -/
def sealT2 (P : Prims) (t label pt : List Nat) : List Nat :=
  authCryptMeta t label pt.length ++
    P.mac (expand P (authCryptMeta t label pt.length)
      labelDataAuthenticationKey 32) pt

/-- The authentication tag Seal expands (src/lockstitch.go line 203). -/
def sealTag (P : Prims) (t label pt : List Nat) : List Nat :=
  expand P (sealT2 P t label pt) labelAuthenticationTag 16

/-- The ciphertext body of an Open input: all but the trailing 16 tag bytes
(src/lockstitch.go line 222). -/
def openBody (input : List Nat) : List Nat :=
  input.take (input.length - 16)

/-- The trailing 16 tag bytes of an Open input (src/lockstitch.go
line 222). -/
def openTag (input : List Nat) : List Nat :=
  input.drop (input.length - 16)

/-- The transcript after Open's opAuthCrypt=0x05 metadata record
(src/lockstitch.go lines 226-231); the recorded plaintext length equals the
body length. -/
def openMeta (t label input : List Nat) : List Nat :=
  authCryptMeta t label (openBody input).length

/-- Open's data encryption key (src/lockstitch.go line 234). -/
def openDek (P : Prims) (t label input : List Nat) : List Nat :=
  expand P (openMeta t label input) labelDataEncryptionKey 32

/-- Open's data authentication key (src/lockstitch.go line 235). -/
def openDak (P : Prims) (t label input : List Nat) : List Nat :=
  expand P (openMeta t label input) labelDataAuthenticationKey 32

/-- The unauthenticated plaintext Open writes into the destination buffer:
AES-256-CTR over the body with the received tag as IV (src/lockstitch.go
line 238). -/
def openPlaintext (P : Prims) (t label input : List Nat) : List Nat :=
  ctrXor P.blockEnc (openDek P t label input) (openTag input)
    (openBody input)

/-- Open's transcript after the recomputed authenticator is appended
(src/lockstitch.go lines 241-244). -/
def openTranscriptFull (P : Prims) (t label input : List Nat) : List Nat :=
  openMeta t label input ++
    P.mac (openDak P t label input) (openPlaintext P t label input)

/-- The counterfactual tag Open expands before ratcheting (src/lockstitch.go
line 247). -/
def openRecomputedTag (P : Prims) (t label input : List Nat) : List Nat :=
  expand P (openTranscriptFull P t label input) labelAuthenticationTag 16

/-- Open's post-operation transcript: the unconditional ratchet at
src/lockstitch.go line 250, performed before the tag comparison. -/
def openAdvancedState (P : Prims) (t label input : List Nat) : List Nat :=
  ratchet P (openTranscriptFull P t label input)

/-- Everything Open leaves behind: the bytes written through the destination
slice (`buf`, the contents of `ret` = dst followed by the decrypted
plaintext), the outcome of the constant-time tag comparison (`ok`), and the
new transcript. -/
structure OpenResult where
  buf : List Nat
  ok : Bool
  state : List Nat
  deriving DecidableEq, Repr

/-- Open (src/lockstitch.go lines 220-257).  An input shorter than
TagLen = 16 makes the slice split at line 222 panic, modelled as `none`.
Otherwise the plaintext is written into the destination buffer, the state
ratchets unconditionally, and `ok` records the
`subtle.ConstantTimeCompare(tag, tagP)` outcome at line 253. -/
def Open (P : Prims) (t label dst input : List Nat) : Option OpenResult :=
  if input.length < 16 then none
  else some
    { buf := dst ++ openPlaintext P t label input
      ok := decide (constantTimeCompare (openTag input)
        (openRecomputedTag P t label input) ≠ 0)
      state := openAdvancedState P t label input }

/-- The value Open's caller receives (src/lockstitch.go lines 253-256):
the appended slice on success, nothing (`nil, ErrInvalidCiphertext`) on
failure. -/
def openResult (o : OpenResult) : Option (List Nat) :=
  if o.ok then some o.buf else none

/-- A protocol built by NewProtocol followed by a sequence of Mix calls
(spec property P3's common prefix of operations). -/
def build (domain : List Nat) (mixes : List (List Nat × List Nat)) :
    List Nat :=
  mixes.foldl (fun t m => Mix t m.1 m.2) (NewProtocol domain)

end Lockstitch

namespace Reference

/-- The external primitives consumed by `src/unnamed/part_005` (first
document): cSHAKE128 (`xof`: customization string, absorbed bytes and a
requested length give that many squeezed bytes), the AES-128 block function,
and the POLYVAL-based one-time MAC (`polyvalAuth`, part_005 lines 315-341,
whose GCM-SIV padding wraps the external polyval package).  Only output
lengths are assumed. -/
structure Prims where
  xof : List Nat → List Nat → Nat → List Nat
  xof_len : ∀ c t n, (xof c t n).length = n
  blockEnc : List Nat → List Nat → List Nat
  blockEnc_len : ∀ k b, (blockEnc k b).length = 16
  mac : List Nat → List Nat → List Nat
  mac_len : ∀ k m, (mac k m).length = 16

/-- A protocol of the reference instantiation: the cSHAKE128 customization
string fixed at construction, and the bytes absorbed since the last reset. -/
structure Protocol where
  cust : List Nat
  log : List Nat
  deriving DecidableEq, Repr

/-- NewProtocol (part_005 lines 41-46): a cSHAKE128 instance with
customization "lockstitch:" followed by the domain, and an empty
transcript. -/
def NewProtocol (domain : List Nat) : Protocol :=
  ⟨custPrefixBytes ++ domain, []⟩

/-- combine (part_005 lines 248-254): write the operation byte, then each
input prefixed with left_encode of its bit-length. -/
def combine (log : List Nat) (op : Nat) (inputs : List (List Nat)) :
    List Nat :=
  inputs.foldl (fun acc x => acc ++ leftEncode (x.length * 8) ++ x)
    (log ++ [op])

/-- expand (part_005 lines 258-267): on a copy of the transcript, absorb
opExpand=0x05, the framed label and right_encode of the output bit-length,
then squeeze `n` bytes. -/
def expand (X : Prims) (p : Protocol) (label : List Nat) (n : Nat) :
    List Nat :=
  X.xof p.cust (p.log ++ [5] ++ leftEncode (label.length * 8) ++ label ++
    rightEncode (n * 8)) n

/-- ratchet (part_005 lines 240-244): expand a 32-byte ratchet key, reset the
transcript, then combine(opRatchet=0x06, rak). -/
def ratchet (X : Prims) (p : Protocol) : Protocol :=
  ⟨p.cust, combine [] 6 [expand X p labelRatchetKey 32]⟩

/-- Mix (part_005 lines 49-52): combine(opMix=0x01, label, input). -/
def Mix (p : Protocol) (label input : List Nat) : Protocol :=
  ⟨p.cust, combine p.log 1 [label, input]⟩

/-- Encrypt (part_005 lines 79-104): combine(opCrypt=0x03, label,
left_encode(bits)), expand 16-byte keys, append the POLYVAL authenticator
framed by left_encode of its bit-length, ratchet, and produce the
AES-128-CTR ciphertext over an all-zero IV. -/
def Encrypt (X : Prims) (p : Protocol) (label dst pt : List Nat) :
    List Nat × Protocol :=
  let t1 := combine p.log 3 [label, leftEncode (pt.length * 8)]
  let dek := expand X ⟨p.cust, t1⟩ labelDataEncryptionKey 16
  let dak := expand X ⟨p.cust, t1⟩ labelDataAuthenticationKey 16
  let auth := X.mac dak pt
  let t2 := t1 ++ leftEncode (auth.length * 8) ++ auth
  (dst ++ ctrXor X.blockEnc dek (List.replicate 16 0) pt,
    ratchet X ⟨p.cust, t2⟩)

end Reference

/-- A degenerate but lawful instantiation of the SHA-512/256 variant's
primitive interfaces (all outputs zero), used to evaluate theorems on
concrete inputs. -/
def zeroPrims : Lockstitch.Prims where
  hash := fun _ => List.replicate 32 0
  hash_len := by intro t; simp
  blockEnc := fun _ _ => List.replicate 16 0
  blockEnc_len := by intro k b; simp
  mac := fun _ _ => List.replicate 16 0
  mac_len := by intro k m; simp

/-- A degenerate but lawful instantiation of the reference variant's
primitive interfaces, used to evaluate theorems on concrete inputs. -/
def zeroRefPrims : Reference.Prims where
  xof := fun _ _ n => List.replicate n 0
  xof_len := by intro c t n; simp
  blockEnc := fun _ _ => List.replicate 16 0
  blockEnc_len := by intro k b; simp
  mac := fun _ _ => List.replicate 16 0
  mac_len := by intro k m; simp

theorem beBytes_length (n v : Nat) : (beBytes n v).length = n := by
  induction n generalizing v with
  | zero => rfl
  | succ n ih => simp [beBytes, ih]

theorem fromBE_append_one (xs : List Nat) (b : Nat) :
    fromBE (xs ++ [b]) = fromBE xs * 256 + b := by
  simp [fromBE, List.foldl_append]

theorem fromBE_beBytes {n v : Nat} (h : v < 256 ^ n) :
    fromBE (beBytes n v) = v := by
  induction n generalizing v with
  | zero =>
    have : v = 0 := by simpa using h
    simp [this, beBytes, fromBE]
  | succ n ih =>
    have hdiv : v / 256 < 256 ^ n := by
      rw [Nat.div_lt_iff_lt_mul (by norm_num)]
      calc v < 256 ^ (n + 1) := h
        _ = 256 ^ n * 256 := by ring
    rw [beBytes, fromBE_append_one, ih hdiv]
    omega

theorem byteLen_bound {v : Nat} (h : v < 2 ^ 64) : v < 256 ^ byteLen v := by
  unfold byteLen
  split_ifs <;> norm_num <;> omega

theorem byteLen_eq_of_encode {u v : Nat} (hu : u < 2 ^ 64) (hv : v < 2 ^ 64)
    (hbytes : beBytes (byteLen u) u = beBytes (byteLen v) v) :
    u = v := by
  have h1 := fromBE_beBytes (byteLen_bound hu)
  have h2 := fromBE_beBytes (byteLen_bound hv)
  rw [← h1, ← h2, hbytes]

theorem leftEncode_inj {u v : Nat} (hu : u < 2 ^ 64) (hv : v < 2 ^ 64)
    (h : leftEncode u = leftEncode v) : u = v := by
  unfold leftEncode at h
  obtain ⟨hlen, hbytes⟩ := List.cons.injEq _ _ _ _ ▸ h
  exact byteLen_eq_of_encode hu hv hbytes

theorem rightEncode_inj {u v : Nat} (hu : u < 2 ^ 64) (hv : v < 2 ^ 64)
    (h : rightEncode u = rightEncode v) : u = v := by
  unfold rightEncode at h
  have hlen : byteLen u = byteLen v := by
    have := congrArg List.length h
    simpa [beBytes_length] using this
  have := List.append_inj h (by simp [beBytes_length, hlen])
  exact byteLen_eq_of_encode hu hv this.1

theorem ctrBlocks_length (enc : List Nat → List Nat → List Nat)
    (key : List Nat) (hlen : ∀ b, (enc key b).length = 16) (c m : Nat) :
    (ctrBlocks enc key c m).length = 16 * m := by
  induction m generalizing c with
  | zero => rfl
  | succ m ih => simp [ctrBlocks, hlen, ih]; ring

theorem ctrKeystream_length (enc : List Nat → List Nat → List Nat)
    (key iv : List Nat) (hlen : ∀ b, (enc key b).length = 16) (n : Nat) :
    (ctrKeystream enc key iv n).length = n := by
  have hblocks := ctrBlocks_length enc key hlen (fromBE iv) ((n + 15) / 16)
  have hge : n ≤ 16 * ((n + 15) / 16) := by
    have h1 := Nat.div_add_mod (n + 15) 16
    have h2 : (n + 15) % 16 < 16 := Nat.mod_lt _ (by norm_num)
    omega
  simp [ctrKeystream, hblocks]
  omega

theorem ctrXor_length (enc : List Nat → List Nat → List Nat)
    (key iv src : List Nat) (hlen : ∀ b, (enc key b).length = 16) :
    (ctrXor enc key iv src).length = src.length := by
  simp [ctrXor, ctrKeystream_length enc key iv hlen]

theorem nat_xor_cancel (a b : Nat) : Nat.xor (Nat.xor a b) b = a := by
  change a ^^^ b ^^^ b = a
  rw [Nat.xor_assoc, Nat.xor_self, Nat.xor_zero]

theorem nat_zero_xor (b : Nat) : Nat.xor 0 b = b := by
  change 0 ^^^ b = b
  exact Nat.zero_xor b

theorem zipWith_xor_cancel : ∀ (src ks : List Nat), src.length ≤ ks.length →
    List.zipWith Nat.xor (List.zipWith Nat.xor src ks) ks = src
  | [], _, _ => by simp
  | a :: s, [], h => by simp at h
  | a :: s, b :: k, h => by
    simp only [List.zipWith_cons_cons, List.cons.injEq]
    exact ⟨nat_xor_cancel a b, zipWith_xor_cancel s k (by simpa using h)⟩

theorem ctrXor_ctrXor (enc : List Nat → List Nat → List Nat)
    (key iv src : List Nat) (hlen : ∀ b, (enc key b).length = 16) :
    ctrXor enc key iv (ctrXor enc key iv src) = src := by
  unfold ctrXor
  rw [show (List.zipWith Nat.xor src (ctrKeystream enc key iv src.length)).length
      = src.length from by
    simp [ctrKeystream_length enc key iv hlen]]
  exact zipWith_xor_cancel _ _
    (by rw [ctrKeystream_length enc key iv hlen])

theorem zipWith_xor_zero (ks : List Nat) (n : Nat) (h : ks.length = n) :
    List.zipWith Nat.xor (List.replicate n 0) ks = ks := by
  induction ks generalizing n with
  | nil => simp
  | cons b k ih =>
    cases n with
    | zero => simp at h
    | succ n =>
      simp [List.replicate_succ, ih n (by simpa using h), nat_zero_xor]

namespace Lockstitch

theorem expand_length (P : Prims) (t label : List Nat) {n : Nat}
    (h : n ≤ 32) : (expand P t label n).length = n := by
  simp [expand, P.hash_len]
  omega

theorem ctrXor_len (P : Prims) (key iv src : List Nat) :
    (ctrXor P.blockEnc key iv src).length = src.length :=
  ctrXor_length P.blockEnc key iv src (fun b => P.blockEnc_len key b)

theorem ctrXor_invol (P : Prims) (key iv src : List Nat) :
    ctrXor P.blockEnc key iv (ctrXor P.blockEnc key iv src) = src :=
  ctrXor_ctrXor P.blockEnc key iv src (fun b => P.blockEnc_len key b)

end Lockstitch

namespace Lockstitch

theorem encrypt_fst (P : Prims) (t label dst pt : List Nat) :
    (Encrypt P t label dst pt).1 = dst ++ ctrXor P.blockEnc
      (expand P (cryptMeta t label pt.length) labelDataEncryptionKey 32)
      (List.replicate 16 0) pt := rfl

theorem encrypt_snd (P : Prims) (t label dst pt : List Nat) :
    (Encrypt P t label dst pt).2 = ratchet P (cryptMeta t label pt.length ++
      P.mac (expand P (cryptMeta t label pt.length)
        labelDataAuthenticationKey 32) pt) := rfl

theorem encrypt_decrypt_core (P : Prims) (t label dst1 dst2 pt : List Nat) :
    Decrypt P t label dst2 ((Encrypt P t label dst1 pt).1.drop dst1.length)
      = (dst2 ++ pt, (Encrypt P t label dst1 pt).2) := by
  rw [encrypt_fst, List.drop_left]
  have hct : (ctrXor P.blockEnc
      (expand P (cryptMeta t label pt.length) labelDataEncryptionKey 32)
      (List.replicate 16 0) pt).length = pt.length := ctrXor_len P _ _ _
  simp only [Decrypt, hct, ctrXor_invol, encrypt_snd]

theorem seal_unfold (P : Prims) (t label dst pt : List Nat) :
    Seal P t label dst pt = (dst ++ ctrXor P.blockEnc
        (expand P (authCryptMeta t label pt.length) labelDataEncryptionKey 32)
        (sealTag P t label pt) pt ++ sealTag P t label pt,
      ratchet P (sealT2 P t label pt)) := rfl

theorem openBody_append (ct tag : List Nat) (h : tag.length = 16) :
    openBody (ct ++ tag) = ct := by
  simp [openBody, List.length_append, h, Nat.add_sub_cancel, List.take_left]

theorem openTag_append (ct tag : List Nat) (h : tag.length = 16) :
    openTag (ct ++ tag) = tag := by
  simp [openTag, List.length_append, h, Nat.add_sub_cancel, List.drop_left]

theorem open_on_append (P : Prims) (t label dst ct tag : List Nat)
    (h : tag.length = 16) :
    Open P t label dst (ct ++ tag) = some
      { buf := dst ++ ctrXor P.blockEnc
          (expand P (authCryptMeta t label ct.length)
            labelDataEncryptionKey 32) tag ct
        ok := decide (constantTimeCompare tag
          (expand P (authCryptMeta t label ct.length ++
            P.mac (expand P (authCryptMeta t label ct.length)
              labelDataAuthenticationKey 32)
              (ctrXor P.blockEnc (expand P (authCryptMeta t label ct.length)
                labelDataEncryptionKey 32) tag ct))
            labelAuthenticationTag 16) ≠ 0)
        state := ratchet P (authCryptMeta t label ct.length ++
          P.mac (expand P (authCryptMeta t label ct.length)
            labelDataAuthenticationKey 32)
            (ctrXor P.blockEnc (expand P (authCryptMeta t label ct.length)
              labelDataEncryptionKey 32) tag ct)) } := by
  have hguard : ¬ (ct ++ tag).length < 16 := by
    simp [List.length_append, h]
  simp only [Open, hguard, if_false, openPlaintext, openRecomputedTag,
    openAdvancedState, openTranscriptFull, openDek, openDak, openMeta,
    openBody_append ct tag h, openTag_append ct tag h]

theorem seal_open_core (P : Prims) (t label dst1 dst2 pt : List Nat) :
    Open P t label dst2 ((Seal P t label dst1 pt).1.drop dst1.length)
      = some ⟨dst2 ++ pt, true, (Seal P t label dst1 pt).2⟩ := by
  have htag : (sealTag P t label pt).length = 16 :=
    expand_length P _ _ (by norm_num)
  have hct : (ctrXor P.blockEnc
      (expand P (authCryptMeta t label pt.length) labelDataEncryptionKey 32)
      (sealTag P t label pt) pt).length = pt.length := ctrXor_len P _ _ _
  rw [seal_unfold, List.append_assoc, List.drop_left,
    open_on_append P t label dst2 _ _ htag, hct, ctrXor_invol]
  simp [sealT2, sealTag, constantTimeCompare]

end Lockstitch

theorem reference_combine_two (log : List Nat) (op : Nat) (a b : List Nat) :
    Reference.combine log op [a, b]
      = log ++ [op] ++ leftEncode (a.length * 8) ++ a ++
        leftEncode (b.length * 8) ++ b := by
  simp [Reference.combine, List.append_assoc]

theorem reference_combine_one (log : List Nat) (op : Nat) (a : List Nat) :
    Reference.combine log op [a]
      = log ++ [op] ++ leftEncode (a.length * 8) ++ a := by
  simp [Reference.combine, List.append_assoc]

/-- Claim C4: for 64-bit values, left_encode and right_encode are injective,
they match the spec's exact examples, and right_encode emits the same
big-endian value bytes with the byte count moved to the final byte. -/
theorem claim_C4_encodings (u v : Nat) (hu : u < 2 ^ 64) (hv : v < 2 ^ 64) :
    ((u = v ↔ leftEncode u = leftEncode v) ∧
      (u = v ↔ rightEncode u = rightEncode v)) ∧
    rightEncode u = List.drop 1 (leftEncode u) ++ List.take 1 (leftEncode u) ∧
    (leftEncode 0 = [1, 0] ∧ leftEncode 128 = [1, 128] ∧
      leftEncode 4096 = [2, 16, 0] ∧ leftEncode 12345 = [2, 48, 57] ∧
      leftEncode 65536 = [3, 1, 0, 0] ∧
      leftEncode (2 ^ 64 - 1) = [8, 255, 255, 255, 255, 255, 255, 255, 255]) ∧
    (rightEncode 0 = [0, 1] ∧ rightEncode 128 = [128, 1] ∧
      rightEncode 4096 = [16, 0, 2] ∧ rightEncode 12345 = [48, 57, 2] ∧
      rightEncode 65536 = [1, 0, 0, 3] ∧
      rightEncode (2 ^ 64 - 1) = [255, 255, 255, 255, 255, 255, 255, 255, 8]) := by
  refine ⟨⟨⟨fun h => by rw [h], leftEncode_inj hu hv⟩,
    ⟨fun h => by rw [h], rightEncode_inj hu hv⟩⟩, ?_, by decide, by decide⟩
  simp [leftEncode, rightEncode]

/-- Claim C4 witness: the injectivity instance at the boundary values 12345
and 65536. -/
theorem claim_C4_witness :
    (12345 = 65536 ↔ leftEncode 12345 = leftEncode 65536) :=
  (claim_C4_encodings 12345 65536 (by norm_num) (by norm_num)).1.1

/-- Claim C5: Mix appends to the transcript exactly the operation byte
followed by the label and the input, each preceded by left_encode of its
bit-length (0x01 is the reference instantiation's opMix, part_005 line 270);
there is no ratchet and nothing else about the protocol changes. -/
theorem claim_C5_mix_record (p : Reference.Protocol) (label input : List Nat) :
    (Reference.Mix p label input).log
        = p.log ++ [1] ++ leftEncode (label.length * 8) ++ label ++
          leftEncode (input.length * 8) ++ input
      ∧ (Reference.Mix p label input).cust = p.cust := by
  exact ⟨reference_combine_two p.log 1 label input, rfl⟩

/-- Claim C6: Encrypt appends the crypt metadata record (0x03 is the
reference instantiation's opCrypt), then the 16-byte authenticator framed as
left_encode(128) followed by auth; it produces exactly as many ciphertext
bytes as plaintext bytes, each the XOR of the plaintext with the counter-mode
keystream started at the all-zero block; and the protocol then ratchets. -/
theorem claim_C6_encrypt (X : Reference.Prims) (p : Reference.Protocol)
    (label dst pt : List Nat) :
    (Reference.Encrypt X p label dst pt).1
        = dst ++ List.zipWith Nat.xor pt
            (ctrKeystream X.blockEnc
              (Reference.expand X
                ⟨p.cust, Reference.combine p.log 3 [label, leftEncode (pt.length * 8)]⟩
                labelDataEncryptionKey 16)
              (List.replicate 16 0) pt.length)
      ∧ (Reference.Encrypt X p label dst pt).1.length = dst.length + pt.length
      ∧ (Reference.Encrypt X p label dst pt).2
        = Reference.ratchet X
            ⟨p.cust, Reference.combine p.log 3 [label, leftEncode (pt.length * 8)] ++
              leftEncode 128 ++
              X.mac (Reference.expand X
                ⟨p.cust, Reference.combine p.log 3 [label, leftEncode (pt.length * 8)]⟩
                labelDataAuthenticationKey 16) pt⟩ := by
  refine ⟨rfl, ?_, ?_⟩
  · simp [Reference.Encrypt,
      ctrXor_length X.blockEnc _ _ _ (fun b => X.blockEnc_len _ b)]
  · simp [Reference.Encrypt, X.mac_len]

/-- Claim C7 counterexample: after a ratchet of the reference instantiation
the transcript is not 34 bytes long. -/
theorem claim_C7_counterexample :
    ¬ (Reference.ratchet zeroRefPrims (Reference.NewProtocol [])).log.length = 34 := by
  decide

/-- Claim C7 as amended: ratchet expands a 32-byte ratchet key from the
pre-reset transcript, resets, and appends 0x06, left_encode(256) = 02 01 00
and the key, so the post-ratchet transcript is a 36-byte seed (1 operation
byte, 3 length bytes and 32 key bytes). -/
theorem claim_C7_ratchet_seed (X : Reference.Prims) (p : Reference.Protocol) :
    (Reference.ratchet X p).log
        = [6] ++ leftEncode 256 ++ Reference.expand X p labelRatchetKey 32
      ∧ (Reference.expand X p labelRatchetKey 32).length = 32
      ∧ leftEncode 256 = [2, 1, 0]
      ∧ (Reference.ratchet X p).log.length = 36
      ∧ (Reference.ratchet X p).cust = p.cust := by
  have hrak : (Reference.expand X p labelRatchetKey 32).length = 32 :=
    X.xof_len _ _ _
  have hrec : (Reference.ratchet X p).log
      = [6] ++ leftEncode 256 ++ Reference.expand X p labelRatchetKey 32 := by
    rw [Reference.ratchet, reference_combine_one, hrak]
    norm_num
  refine ⟨hrec, hrak, by decide, ?_, rfl⟩
  rw [hrec]
  simp [hrak]
  decide

theorem lockstitch_derive_some (P : Lockstitch.Prims) (t label dst : List Nat)
    (n : Nat) (h : n ≤ 2 ^ 36) :
    Lockstitch.Derive P t label dst (n : Int)
      = some (dst ++ Lockstitch.derivePrf P t label n,
          Lockstitch.deriveState P t label n) := by
  have h1 : ¬ ((n : Int) < 0) := by omega
  have h2 : ¬ ((n : Int) > 64 * 1024 * 1024 * 1024) := by
    have hpow : (2 : Nat) ^ 36 = 68719476736 := by norm_num
    rw [hpow] at h
    omega
  unfold Lockstitch.Derive
  rw [if_neg h1, if_neg h2]
  simp

theorem lockstitch_derivePrf_length (P : Lockstitch.Prims)
    (t label : List Nat) (n : Nat) :
    (Lockstitch.derivePrf P t label n).length = n := by
  simp [Lockstitch.derivePrf, Lockstitch.ctrXor_len]

/-- Claim C1: two protocols built by NewProtocol on the same domain followed
by identical Mix calls are in the same state, so Decrypt recovers exactly the
plaintext Encrypt consumed (the bytes appended beyond the destination), and
Open accepts Seal's output and returns the plaintext with no error. -/
theorem claim_C1_round_trip (P : Lockstitch.Prims) (domain : List Nat)
    (mixes : List (List Nat × List Nat)) (label dst1 dst2 pt : List Nat) :
    (Lockstitch.Decrypt P (Lockstitch.build domain mixes) label dst2
        ((Lockstitch.Encrypt P (Lockstitch.build domain mixes) label dst1
          pt).1.drop dst1.length)).1 = dst2 ++ pt
    ∧ Lockstitch.Open P (Lockstitch.build domain mixes) label dst2
        ((Lockstitch.Seal P (Lockstitch.build domain mixes) label dst1
          pt).1.drop dst1.length)
      = some ⟨dst2 ++ pt, true,
          (Lockstitch.Seal P (Lockstitch.build domain mixes) label dst1 pt).2⟩ :=
  ⟨by rw [Lockstitch.encrypt_decrypt_core],
    Lockstitch.seal_open_core P (Lockstitch.build domain mixes) label dst1 dst2 pt⟩

/-- Claim C2: starting from equal states, Encrypt on one protocol and Decrypt
of the produced ciphertext on the other leave the two protocols in equal
states and any subsequent Derive produces byte-identical output; likewise
Seal and Open of the sealed output end in equal states; and on any input
whatsoever, valid or not, Open advances the state in a way that does not
depend on the destination or on the comparison outcome. -/
theorem claim_C2_state_equality (P : Lockstitch.Prims)
    (t label m dst1 dst2 : List Nat) :
    (Lockstitch.Decrypt P t label dst2
        ((Lockstitch.Encrypt P t label dst1 m).1.drop dst1.length)).2
      = (Lockstitch.Encrypt P t label dst1 m).2
    ∧ (∀ label2 dst n, Lockstitch.Derive P
        (Lockstitch.Decrypt P t label dst2
          ((Lockstitch.Encrypt P t label dst1 m).1.drop dst1.length)).2
          label2 dst n
        = Lockstitch.Derive P (Lockstitch.Encrypt P t label dst1 m).2
          label2 dst n)
    ∧ (Lockstitch.Open P t label dst2
        ((Lockstitch.Seal P t label dst1 m).1.drop dst1.length)).map
          Lockstitch.OpenResult.state
      = some (Lockstitch.Seal P t label dst1 m).2
    ∧ (∀ c, (Lockstitch.Open P t label dst1 c).map Lockstitch.OpenResult.state
        = (Lockstitch.Open P t label dst2 c).map Lockstitch.OpenResult.state) := by
  have hed : (Lockstitch.Decrypt P t label dst2
      ((Lockstitch.Encrypt P t label dst1 m).1.drop dst1.length)).2
      = (Lockstitch.Encrypt P t label dst1 m).2 := by
    rw [Lockstitch.encrypt_decrypt_core]
  refine ⟨hed, fun label2 dst n => by rw [hed], ?_, ?_⟩
  · rw [Lockstitch.seal_open_core]
    rfl
  · intro c
    by_cases hc : c.length < 16 <;> simp [Lockstitch.Open, hc]

/-- Claim C3: for inputs of length at least 16, Open returns the
InvalidCiphertext error exactly when the recomputed tag differs from the
trailing 16 input bytes under the constant-time comparison; on success the
returned value is the destination followed by the decrypted plaintext; on
failure no plaintext is returned as the result value; and the post-operation
state is the unconditional ratchet advance, identical in both cases. -/
theorem claim_C3_open_contract (P : Lockstitch.Prims)
    (t label dst input : List Nat) (h : 16 ≤ input.length) :
    ∃ o, Lockstitch.Open P t label dst input = some o ∧
      (Lockstitch.openResult o = none ↔
        constantTimeCompare (Lockstitch.openTag input)
          (Lockstitch.openRecomputedTag P t label input) = 0) ∧
      (constantTimeCompare (Lockstitch.openTag input)
          (Lockstitch.openRecomputedTag P t label input) ≠ 0 →
        Lockstitch.openResult o
          = some (dst ++ Lockstitch.openPlaintext P t label input)) ∧
      o.state = Lockstitch.openAdvancedState P t label input := by
  have hg : ¬ input.length < 16 := by omega
  refine ⟨⟨dst ++ Lockstitch.openPlaintext P t label input,
      decide (constantTimeCompare (Lockstitch.openTag input)
        (Lockstitch.openRecomputedTag P t label input) ≠ 0),
      Lockstitch.openAdvancedState P t label input⟩,
    by simp [Lockstitch.Open, hg], ?_, ?_, rfl⟩
  · by_cases hc : constantTimeCompare (Lockstitch.openTag input)
        (Lockstitch.openRecomputedTag P t label input) = 0 <;>
      simp [Lockstitch.openResult, hc]
  · intro hc
    simp [Lockstitch.openResult, hc]

/-- Claim C3 witness: on a concrete 16-byte forgery the result value is the
error (no plaintext). -/
theorem claim_C3_witness :
    (Lockstitch.Open zeroPrims [] [] [] (List.replicate 16 1)).map
      Lockstitch.openResult = some none := by
  obtain ⟨o, ho, hiff, _, _⟩ := claim_C3_open_contract zeroPrims [] [] []
    (List.replicate 16 1) (by decide)
  rw [ho]
  simp [hiff.mpr (by decide)]

/-- Claim C8: for equal protocol states, label and length, Derive appends
exactly the same n derived bytes whatever the prior contents of the
destination, and the appended output has length n. -/
theorem claim_C8_derive_dst_independent (P : Lockstitch.Prims)
    (t label : List Nat) (n : Nat) (dst1 dst2 : List Nat) (h : n ≤ 2 ^ 36) :
    (Lockstitch.Derive P t label dst1 (n : Int)).map
        (fun r => (r.1.drop dst1.length, r.2))
      = (Lockstitch.Derive P t label dst2 (n : Int)).map
        (fun r => (r.1.drop dst2.length, r.2))
    ∧ (Lockstitch.Derive P t label dst1 (n : Int)).map (fun r => r.1.length)
      = some (dst1.length + n) := by
  rw [lockstitch_derive_some P t label dst1 n h,
    lockstitch_derive_some P t label dst2 n h]
  constructor
  · simp [List.drop_left]
  · simp [lockstitch_derivePrf_length]

/-- Claim C8 witness: on a concrete state, the eight bytes Derive appends do
not depend on the destination contents. -/
theorem claim_C8_witness :
    (Lockstitch.Derive zeroPrims [] [] [] ((8 : Nat) : Int)).map
        (fun r => (r.1.drop 0, r.2))
      = (Lockstitch.Derive zeroPrims [] [] [3] ((8 : Nat) : Int)).map
        (fun r => (r.1.drop 1, r.2)) := by
  have h := (claim_C8_derive_dst_independent zeroPrims [] [] 8 [] [3]
    (by norm_num)).1
  simpa using h

/-- Claim C9: Derive fails unrecoverably exactly on a negative n or an n
above the 64 GiB limit, so it succeeds for every n up to 2^32 bytes and
beyond; Open fails unrecoverably exactly on inputs shorter than
TagLen = 16. -/
theorem claim_C9_fault_conditions (P : Lockstitch.Prims)
    (t label dst input : List Nat) :
    (∀ nn : Int, Lockstitch.Derive P t label dst nn = none ↔
      (nn < 0 ∨ 64 * 1024 * 1024 * 1024 < nn))
    ∧ (∀ n : Nat, n ≤ 2 ^ 32 →
        (Lockstitch.Derive P t label dst (n : Int)).isSome = true)
    ∧ (Lockstitch.Open P t label dst input = none ↔ input.length < 16) := by
  refine ⟨?_, ?_, ?_⟩
  · intro nn
    unfold Lockstitch.Derive
    split_ifs with h1 h2
    · simp [h1]
    · simp
      omega
    · simp
      omega
  · intro n hn
    have h : n ≤ 2 ^ 36 := by
      have h32 : (2 : Nat) ^ 32 ≤ 2 ^ 36 := by norm_num
      omega
    rw [lockstitch_derive_some P t label dst n h]
    rfl
  · by_cases hc : input.length < 16 <;> simp [Lockstitch.Open, hc]

/-- Claim C9 witness: Derive rejects -1, accepts 8; Open rejects a 1-byte
input. -/
theorem claim_C9_witness :
    Lockstitch.Derive zeroPrims [] [] [] (-1) = none
    ∧ (Lockstitch.Derive zeroPrims [] [] [] ((8 : Nat) : Int)).isSome = true
    ∧ Lockstitch.Open zeroPrims [] [] [] [0] = none := by
  obtain ⟨h1, h2, h3⟩ := claim_C9_fault_conditions zeroPrims [] [] [] [0]
  exact ⟨(h1 (-1)).mpr (Or.inl (by norm_num)), h2 8 (by norm_num),
    h3.mpr (by decide)⟩

/-- Claim C10: when Open's tag verification fails, the decrypted
unauthenticated plaintext has nevertheless been written after the
destination bytes in the output buffer; the error return does not erase it,
it only withholds the result value. -/
theorem claim_C10_failed_open_buffer (P : Lockstitch.Prims)
    (t label dst input : List Nat) (h : 16 ≤ input.length)
    (hfail : constantTimeCompare (Lockstitch.openTag input)
      (Lockstitch.openRecomputedTag P t label input) = 0) :
    ∃ o, Lockstitch.Open P t label dst input = some o ∧
      Lockstitch.openResult o = none ∧
      o.buf = dst ++ Lockstitch.openPlaintext P t label input ∧
      o.state = Lockstitch.openAdvancedState P t label input := by
  have hg : ¬ input.length < 16 := by omega
  refine ⟨⟨dst ++ Lockstitch.openPlaintext P t label input,
      decide (constantTimeCompare (Lockstitch.openTag input)
        (Lockstitch.openRecomputedTag P t label input) ≠ 0),
      Lockstitch.openAdvancedState P t label input⟩,
    by simp [Lockstitch.Open, hg], ?_, rfl, rfl⟩
  simp [Lockstitch.openResult, hfail]

/-- Claim C10 witness: a concrete failing Open whose buffer still holds the
decrypted bytes. -/
theorem claim_C10_witness :
    (Lockstitch.Open zeroPrims [] [] [] (List.replicate 16 2)).map
        Lockstitch.OpenResult.buf
      = some (Lockstitch.openPlaintext zeroPrims [] [] (List.replicate 16 2)) := by
  obtain ⟨o, ho, _, hbuf, _⟩ := claim_C10_failed_open_buffer zeroPrims [] [] []
    (List.replicate 16 2) (by decide) (by decide)
  rw [ho]
  simp [hbuf]
